import Mathlib

/-!
Verification of the cockroachdb/version Go package against its specification.

This file shallowly embeds the package's data model and operations
(`Version`, `MajorVersion`, `NullVersion`, `Parse`, `Compare`, `Format`,
`IncPatch`, `IncPreRelease`, the SQL scan adapters) as executable Lean
definitions translated from `version.go`, `major_version.go` and
`null_version.go`, and proves or refutes the frozen claims about them.

Modelling conventions:
- Go `int` is modelled as `Int` (overflow is irrelevant here: all parsed
  values are small non-negative numbers, and comparison logic is
  overflow-free).
- Go functions returning `(T, error)` are modelled as `T × Option VErr`,
  where the first component is exactly the value the Go code returns
  alongside the error (`Version{}` on error paths), and `VErr`
  distinguishes the error kinds relevant to the claims.
- Go strings are `String`; Go's bytewise string comparison agrees with
  codepoint-lexicographic comparison on valid UTF-8, which is how
  `cmpCharList` models it.
- Each of the nine anchored regular expressions in `Parse` is translated
  into an equivalent deterministic recognizer over `List Char`.  Each
  regex is deterministic: every quantified sub-expression (a digit run, a
  hex run, a label-character run) is followed by a delimiter outside its
  character class (or end of input), so the greedy leftmost-first match
  is the unique possible match and the capture groups are uniquely
  determined.  The recognizers below implement exactly that unique
  decomposition.
-/

namespace Crdb

/-- Go type `releasePhase int`. -/
abbrev releasePhase := Int

def alpha : releasePhase := 1
def beta : releasePhase := 2
def rc : releasePhase := 3
def cloudonly : releasePhase := 4
def stable : releasePhase := 5
def adhoc : releasePhase := 6

/-- The `Version` struct of version.go.  Field order and names follow the source. -/
structure Version where
  year : Int
  ordinal : Int
  patch : Int
  phase : releasePhase
  phaseOrdinal : Int
  phaseSubOrdinal : Int
  customOrdinal : Int
  adhocLabel : String
  raw : String
deriving DecidableEq

/-- The Go zero value `Version{}` (note: its phase is 0, below `alpha`). -/
def Version.zero : Version := ⟨0, 0, 0, 0, 0, 0, 0, "", ""⟩

/-- Go `cmp.Compare` on integers: -1, 0 or +1. -/
def cmpInt (a b : Int) : Int := if a < b then -1 else if b < a then 1 else 0

/-- Go `cmp.Compare` on strings: bytewise lexicographic comparison, modelled
codepoint-by-codepoint (equivalent on valid UTF-8). -/
def cmpCharList : List Char → List Char → Int
  | [], [] => 0
  | [], _ :: _ => -1
  | _ :: _, [] => 1
  | c :: cs, d :: ds =>
    if c.toNat < d.toNat then -1
    else if d.toNat < c.toNat then 1
    else cmpCharList cs ds

def cmpStr (s t : String) : Int := cmpCharList s.data t.data

/-- One step of the short-circuit chain in `Version.Compare`:
`if rslt := cmp.Compare(..); rslt != 0 { return rslt }`. -/
def lexStep (c r : Int) : Int := if c = 0 then r else c

/-- Function `Version.Compare` from version.go: lexicographic comparison of
(year, ordinal, patch, phase, phaseOrdinal, phaseSubOrdinal, customOrdinal,
adhocLabel), short-circuiting at the first nonzero comparison. -/
def Version.Compare (v w : Version) : Int :=
  lexStep (cmpInt v.year w.year)
    (lexStep (cmpInt v.ordinal w.ordinal)
      (lexStep (cmpInt v.patch w.patch)
        (lexStep (cmpInt v.phase w.phase)
          (lexStep (cmpInt v.phaseOrdinal w.phaseOrdinal)
            (lexStep (cmpInt v.phaseSubOrdinal w.phaseSubOrdinal)
              (lexStep (cmpInt v.customOrdinal w.customOrdinal)
                (lexStep (cmpStr v.adhocLabel w.adhocLabel) 0)))))))

def Version.Equals (v w : Version) : Bool := v.Compare w == 0

def Version.LessThan (v w : Version) : Bool := v.Compare w < 0

def Version.AtLeast (v w : Version) : Bool := v.Compare w ≥ 0

def Version.Empty (v : Version) : Bool := v.Equals Version.zero

/-- Method `IsPrerelease`: phase strictly below cloudonly and not the zero value. -/
def Version.IsPrerelease (v : Version) : Bool := v.phase < cloudonly && !v.Empty

def Version.IsCustomBuild (v : Version) : Bool := v.customOrdinal > 0

def Version.IsAdhocBuild (v : Version) : Bool := v.adhocLabel ≠ ""

def Version.IsCustomOrAdhocBuild (v : Version) : Bool :=
  v.IsCustomBuild || v.IsAdhocBuild

def Version.IsCloudOnlyBuild (v : Version) : Bool := v.phase == cloudonly

/-- The `MajorVersion` struct of major_version.go. -/
structure MajorVersion where
  Year : Int
  Ordinal : Int
deriving DecidableEq

def MajorVersion.Compare (m o : MajorVersion) : Int :=
  lexStep (cmpInt m.Year o.Year) (cmpInt m.Ordinal o.Ordinal)

def Version.Major (v : Version) : MajorVersion := ⟨v.year, v.ordinal⟩

def Version.CompareSeries (v w : Version) : Int := v.Major.Compare w.Major

/-! ### Parsing infrastructure

Each regular expression of `Parse` is translated into a deterministic
recognizer.  See the header comment for the determinism argument. -/

/-- Maximal prefix of characters satisfying `p`, with the remainder. -/
def splitWhile (p : Char → Bool) : List Char → List Char × List Char
  | [] => ([], [])
  | c :: cs =>
    if p c then
      let q := splitWhile p cs
      (c :: q.1, q.2)
    else ([], c :: cs)

/-- Consume one expected literal character. -/
def expectChar (c : Char) : List Char → Option (List Char)
  | [] => none
  | d :: rest => if d = c then some rest else none

/-- Consume an expected literal character sequence. -/
def expectList (w : List Char) (l : List Char) : Option (List Char) :=
  if w.isPrefixOf l then some (l.drop w.length) else none

/-- Regex `[0-9]+` (greedy, followed in every use by a non-digit or end). -/
def digits1 (l : List Char) : Option (List Char × List Char) :=
  match splitWhile Char.isDigit l with
  | ([], _) => none
  | (d :: ds, r) => some (d :: ds, r)

/-- Regex `[1-9][0-9]*` (greedy, followed in every use by a non-digit or end). -/
def posNum (l : List Char) : Option (List Char × List Char) :=
  match splitWhile Char.isDigit l with
  | ([], _) => none
  | (d :: ds, r) => if d = '0' then none else some (d :: ds, r)

/-- Regex `(?:[1-9][0-9]*|0)` (and the equivalent `(0|[1-9][0-9]*)`):
the maximal digit run, which must be canonical ("0" or no leading zero),
followed in every use by a non-digit or end. -/
def canonNum (l : List Char) : Option (List Char × List Char) :=
  match splitWhile Char.isDigit l with
  | ([], _) => none
  | (d :: ds, r) =>
    if d = '0' then (if ds = [] then some ([d], r) else none)
    else some (d :: ds, r)

/-- Regex tail `(?:-fips)?$`. -/
def fipsEnd (l : List Char) : Bool := l == [] || l == "-fips".data

/-- Regex alternation `alpha|beta|rc|cloudonly` (tried left to right;
the four literals start with distinct characters). -/
def phaseKw (l : List Char) : Option (String × List Char) :=
  if "alpha".data.isPrefixOf l then some ("alpha", l.drop 5)
  else if "beta".data.isPrefixOf l then some ("beta", l.drop 4)
  else if "rc".data.isPrefixOf l then some ("rc", l.drop 2)
  else if "cloudonly".data.isPrefixOf l then some ("cloudonly", l.drop 9)
  else none

/-- Regex `.` (any character except newline). -/
def anyChar : List Char → Option (List Char)
  | [] => none
  | c :: rest => if c = '\n' then none else some rest

/-- Character class `[a-f0-9]`. -/
def isHexChar (c : Char) : Bool := c.isDigit || ('a' ≤ c && c ≤ 'f')

/-- Character class `[-a-zA-Z0-9\.\+]`. -/
def isLabelChar (c : Char) : Bool :=
  c == '-' || c.isDigit || ('a' ≤ c && c ≤ 'z') || ('A' ≤ c && c ≤ 'Z') ||
    c == '.' || c == '+'

/-- Regex alternation `(-rc|\.)` in pattern 5 (disjoint first characters). -/
def cloudSubSep (l : List Char) : Option (List Char) :=
  match expectList "-rc".data l with
  | some r => some r
  | none => expectChar '.' l

/-- The named capture groups of one pattern; `""` means "group absent or
unmatched", exactly as Go's `FindStringSubmatch`/`SubexpIndex` yields. -/
structure Caps where
  year : String := ""
  ordinal : String := ""
  patch : String := ""
  phase : String := ""
  phaseOrdinal : String := ""
  phaseSubOrdinal : String := ""
  customOrdinal : String := ""
  adhocLabel : String := ""
deriving DecidableEq

/-- Shared prefix of patterns 1-8:
`^v(?P<year>[1-9][0-9]*)\.(?P<ordinal>[1-9][0-9]*)\.(?P<patch>(?:[1-9][0-9]*|0))`. -/
def vyop (l : List Char) : Option (String × String × String × List Char) :=
  match expectChar 'v' l with
  | none => none
  | some l1 =>
    match posNum l1 with
    | none => none
    | some (y, l2) =>
      match expectChar '.' l2 with
      | none => none
      | some l3 =>
        match posNum l3 with
        | none => none
        | some (o, l4) =>
          match expectChar '.' l4 with
          | none => none
          | some l5 =>
            match canonNum l5 with
            | none => none
            | some (p, l6) => some (String.mk y, String.mk o, String.mk p, l6)

/-- Pattern 1: `^v<year>\.<ordinal>\.<patch>(?:-fips)?$`. -/
def pat1 (l : List Char) : Option Caps :=
  match vyop l with
  | none => none
  | some (y, o, p, rest) =>
    if fipsEnd rest then some { year := y, ordinal := o, patch := p } else none

/-- Pattern 2: `^v<year>\.<ordinal>\.<patch>-<phase>\.<phaseOrdinal>(?:-fips)?$`. -/
def pat2 (l : List Char) : Option Caps :=
  match vyop l with
  | none => none
  | some (y, o, p, rest) =>
    match expectChar '-' rest with
    | none => none
    | some r1 =>
      match phaseKw r1 with
      | none => none
      | some (ph, r2) =>
        match expectChar '.' r2 with
        | none => none
        | some r3 =>
          match digits1 r3 with
          | none => none
          | some (po, r4) =>
            if fipsEnd r4 then
              some { year := y, ordinal := o, patch := p, phase := ph,
                     phaseOrdinal := String.mk po }
            else none

/-- Pattern 3: `^v<year>\.<ordinal>\.<patch>-<customOrdinal>-g[a-f0-9]+(?:-fips)?$`. -/
def pat3 (l : List Char) : Option Caps :=
  match vyop l with
  | none => none
  | some (y, o, p, rest) =>
    match expectChar '-' rest with
    | none => none
    | some r1 =>
      match canonNum r1 with
      | none => none
      | some (co, r2) =>
        match expectList "-g".data r2 with
        | none => none
        | some r3 =>
          match splitWhile isHexChar r3 with
          | ([], _) => none
          | (_ :: _, r4) =>
            if fipsEnd r4 then
              some { year := y, ordinal := o, patch := p,
                     customOrdinal := String.mk co }
            else none

/-- Pattern 4:
`^v<year>\.<ordinal>\.<patch>-<phase>.<phaseOrdinal>-<customOrdinal>-g[a-f0-9]+(?:-fips)?$`
(note the unescaped `.` after the phase: any character except newline). -/
def pat4 (l : List Char) : Option Caps :=
  match vyop l with
  | none => none
  | some (y, o, p, rest) =>
    match expectChar '-' rest with
    | none => none
    | some r1 =>
      match phaseKw r1 with
      | none => none
      | some (ph, r2) =>
        match anyChar r2 with
        | none => none
        | some r3 =>
          match digits1 r3 with
          | none => none
          | some (po, r4) =>
            match expectChar '-' r4 with
            | none => none
            | some r5 =>
              match canonNum r5 with
              | none => none
              | some (co, r6) =>
                match expectList "-g".data r6 with
                | none => none
                | some r7 =>
                  match splitWhile isHexChar r7 with
                  | ([], _) => none
                  | (_ :: _, r8) =>
                    if fipsEnd r8 then
                      some { year := y, ordinal := o, patch := p, phase := ph,
                             phaseOrdinal := String.mk po,
                             customOrdinal := String.mk co }
                    else none

/-- Pattern 5:
`^v<year>\.<ordinal>\.<patch>-<phase>.<phaseOrdinal>-cloudonly(-rc|\.)<phaseSubOrdinal>$`
(unescaped `.` after the phase, as in pattern 4). -/
def pat5 (l : List Char) : Option Caps :=
  match vyop l with
  | none => none
  | some (y, o, p, rest) =>
    match expectChar '-' rest with
    | none => none
    | some r1 =>
      match phaseKw r1 with
      | none => none
      | some (ph, r2) =>
        match anyChar r2 with
        | none => none
        | some r3 =>
          match digits1 r3 with
          | none => none
          | some (po, r4) =>
            match expectList "-cloudonly".data r4 with
            | none => none
            | some r5 =>
              match cloudSubSep r5 with
              | none => none
              | some r6 =>
                match canonNum r6 with
                | none => none
                | some (ps, r7) =>
                  if r7 = [] then
                    some { year := y, ordinal := o, patch := p, phase := ph,
                           phaseOrdinal := String.mk po,
                           phaseSubOrdinal := String.mk ps }
                  else none

/-- Pattern 6: `^v<year>\.<ordinal>\.<patch>-(?P<phase>cloudonly)-rc<phaseOrdinal>$`. -/
def pat6 (l : List Char) : Option Caps :=
  match vyop l with
  | none => none
  | some (y, o, p, rest) =>
    match expectList "-cloudonly-rc".data rest with
    | none => none
    | some r1 =>
      match digits1 r1 with
      | none => none
      | some (po, r2) =>
        if r2 = [] then
          some { year := y, ordinal := o, patch := p, phase := "cloudonly",
                 phaseOrdinal := String.mk po }
        else none

/-- Pattern 7: `^v<year>\.<ordinal>\.<patch>-(?P<phase>cloudonly)(?P<phaseOrdinal>[0-9]+)?$`
(the ordinal group is optional; when absent its capture is `""`). -/
def pat7 (l : List Char) : Option Caps :=
  match vyop l with
  | none => none
  | some (y, o, p, rest) =>
    match expectList "-cloudonly".data rest with
    | none => none
    | some r1 =>
      let q := splitWhile Char.isDigit r1
      if q.2 = [] then
        some { year := y, ordinal := o, patch := p, phase := "cloudonly",
               phaseOrdinal := String.mk q.1 }
      else none

/-- Pattern 8 (catch-all): `^v<year>\.<ordinal>\.<patch>-(?P<adhocLabel>[-a-zA-Z0-9\.\+]+)$`. -/
def pat8 (l : List Char) : Option Caps :=
  match vyop l with
  | none => none
  | some (y, o, p, rest) =>
    match expectChar '-' rest with
    | none => none
    | some r1 =>
      match splitWhile isLabelChar r1 with
      | ([], _) => none
      | (c :: cs, r2) =>
        if r2 = [] then
          some { year := y, ordinal := o, patch := p,
                 adhocLabel := String.mk (c :: cs) }
        else none

/-- Pattern 9:
`^sha256:(?P<adhocLabel>[^:]+):latest-v(?P<year>[1-9][0-9]*)\.(?P<ordinal>[1-9][0-9]*)-build$`. -/
def pat9 (l : List Char) : Option Caps :=
  match expectList "sha256:".data l with
  | none => none
  | some l1 =>
    match splitWhile (fun c => c != ':') l1 with
    | ([], _) => none
    | (c :: cs, l2) =>
      match expectList ":latest-v".data l2 with
      | none => none
      | some l3 =>
        match posNum l3 with
        | none => none
        | some (y, l4) =>
          match expectChar '.' l4 with
          | none => none
          | some l5 =>
            match posNum l5 with
            | none => none
            | some (o, l6) =>
              match expectList "-build".data l6 with
              | none => none
              | some l7 =>
                if l7 = [] then
                  some { year := String.mk y, ordinal := String.mk o,
                         adhocLabel := String.mk (c :: cs) }
                else none

/-- The fixed pattern list of `Parse`, in source order. -/
def patterns : List (List Char → Option Caps) :=
  [pat1, pat2, pat3, pat4, pat5, pat6, pat7, pat8, pat9]

/-- How many of the nine patterns match a given string. -/
def matchCount (s : String) : Nat :=
  (patterns.filter (fun p => (p s.data).isSome)).length

/-- The error kinds of the package that the claims distinguish. -/
inductive VErr where
  | malformedInput
  | unknownPhase
  | invalidState
  | requiredValueMissing
  | typeMismatch
deriving DecidableEq

/-- Go `strconv.Atoi` restricted to how `Parse` uses it: the argument is
either a digit run or `""`, and the error is discarded (`""` yields 0). -/
def digitsToNat : List Char → Nat → Nat
  | [], acc => acc
  | c :: cs, acc => digitsToNat cs (acc * 10 + (c.toNat - 48))

def atoi (s : String) : Int := Int.ofNat (digitsToNat s.data 0)

/-- The `preReleasePhase` name table of `Parse`. -/
def lookupPhase (s : String) : Option releasePhase :=
  if s = "alpha" then some alpha
  else if s = "beta" then some beta
  else if s = "rc" then some rc
  else if s = "cloudonly" then some cloudonly
  else none

/-- The capture-group-to-field population code of `Parse` (the body of the
`if pat.MatchString(str)` block), flattened: the phase-ordinal and
phase-sub-ordinal groups are only consulted when the phase group matched,
exactly as in the source. -/
def applyCaps (str : String) (c : Caps) : Version × Option VErr :=
  let yr := atoi c.year
  let od := atoi c.ordinal
  let pa := if c.patch = "" then 0 else atoi c.patch
  if c.phase ≠ "" then
    match lookupPhase c.phase with
    | none => (Version.zero, some .unknownPhase)
    | some ph =>
      let po := if c.phaseOrdinal = "" then 0 else atoi c.phaseOrdinal
      let ps := if c.phaseSubOrdinal = "" then 0 else atoi c.phaseSubOrdinal
      let co := if c.customOrdinal = "" then 0 else atoi c.customOrdinal
      if c.adhocLabel ≠ "" then
        (⟨yr, od, pa, adhoc, po, ps, co, c.adhocLabel, str⟩, none)
      else
        (⟨yr, od, pa, ph, po, ps, co, "", str⟩, none)
  else
    let co := if c.customOrdinal = "" then 0 else atoi c.customOrdinal
    if c.adhocLabel ≠ "" then
      (⟨yr, od, pa, adhoc, 0, 0, co, c.adhocLabel, str⟩, none)
    else
      (⟨yr, od, pa, stable, 0, 0, co, "", str⟩, none)

/-- The pattern loop of `Parse`: first matching pattern wins. -/
def ParseAux (str : String) : List (List Char → Option Caps) → Version × Option VErr
  | [] => (Version.zero, some .malformedInput)
  | p :: ps =>
    match p str.data with
    | some caps => applyCaps str caps
    | none => ParseAux str ps

/-- Function `Parse` from version.go, returning the same `(Version, error)` pair as
the Go function (on error the Version is `Version{}`). -/
def Parse (str : String) : Version × Option VErr := ParseAux str patterns

/-- Function `ParseMajorVersion` from major_version.go:
regex `^v(0|[1-9][0-9]*)\.([1-9][0-9]*)$`. -/
def ParseMajorVersion (s : String) : MajorVersion × Option VErr :=
  match expectChar 'v' s.data with
  | none => (⟨0, 0⟩, some .malformedInput)
  | some l1 =>
    match canonNum l1 with
    | none => (⟨0, 0⟩, some .malformedInput)
    | some (y, l2) =>
      match expectChar '.' l2 with
      | none => (⟨0, 0⟩, some .malformedInput)
      | some l3 =>
        match posNum l3 with
        | none => (⟨0, 0⟩, some .malformedInput)
        | some (o, l4) =>
          if l4 = [] then (⟨atoi (String.mk y), atoi (String.mk o)⟩, none)
          else (⟨0, 0⟩, some .malformedInput)

/-! ### Formatting -/

/-- One character of the character set `[%XYZpPosn]` of Format's placeholder check. -/
def placeholderChar (c : Char) : Bool :=
  c == '%' || c == 'X' || c == 'Y' || c == 'Z' || c == 'p' || c == 'P' ||
    c == 'o' || c == 's' || c == 'n'

/-- Whether the regex `%[^%XYZpPosn]` matches anywhere in the template,
i.e. whether `Format` panics. -/
def hasBadPlaceholder : List Char → Bool
  | '%' :: c :: rest => !placeholderChar c || hasBadPlaceholder (c :: rest)
  | _ :: rest => hasBadPlaceholder rest
  | [] => false

/-- Go `strings.ReplaceAll` with a two-character pattern (every placeholder
is two characters): left-to-right, non-overlapping. -/
def replace2 (a b : Char) (rep : List Char) : List Char → List Char
  | c :: d :: rest =>
    if c = a ∧ d = b then rep ++ replace2 a b rep rest
    else c :: replace2 a b rep (d :: rest)
  | l => l

/-- Go `strconv.Itoa` (via decimal digits; fuel-based for kernel reduction). -/
def natToRevDigits : Nat → Nat → List Char
  | 0, _ => []
  | fuel + 1, n => if n = 0 then [] else Char.ofNat (48 + n % 10) :: natToRevDigits fuel (n / 10)

def itoaNat (n : Nat) : List Char :=
  if n = 0 then ['0'] else (natToRevDigits (n + 1) n).reverse

def itoa (i : Int) : String :=
  if i < 0 then String.mk ('-' :: itoaNat (-i).toNat) else String.mk (itoaNat i.toNat)

/-- The `phaseName` table of `Format` (missing keys yield `""`, as a Go map does). -/
def phaseNameStr (p : releasePhase) : String :=
  if p = alpha then "alpha"
  else if p = beta then "beta"
  else if p = rc then "rc"
  else if p = cloudonly then "cloudonly"
  else ""

/-- The replacement chain of `Format` (the code after the placeholder check),
in source order: %X %Y %Z %p %P %o %s %n %%. -/
def FormatAll (v : Version) (t : String) : String :=
  let f1 := replace2 '%' 'X' (itoa v.year).data t.data
  let f2 := replace2 '%' 'Y' (itoa v.ordinal).data f1
  let f3 := replace2 '%' 'Z' (itoa v.patch).data f2
  let f4 := replace2 '%' 'p' (itoa v.phase).data f3
  let f5 := replace2 '%' 'P' (phaseNameStr v.phase).data f4
  let f6 := replace2 '%' 'o' (itoa v.phaseOrdinal).data f5
  let f7 := replace2 '%' 's' (itoa v.phaseSubOrdinal).data f6
  let f8 := replace2 '%' 'n' (itoa v.customOrdinal).data f7
  let f9 := replace2 '%' '%' ['%'] f8
  String.mk f9

/-- Method `Version.Format`: the `none` result models the panic on an unknown placeholder. -/
def Format (v : Version) (t : String) : Option String :=
  if hasBadPlaceholder t.data then none else some (FormatAll v t)

/-! ### Derivation operations -/

/-- Method `Version.IncPatch` from version.go.  The template `"v%X.%Y.%Z"` has no
bad placeholder (see `incPatch_template_ok`), so the Go `Format` call cannot
panic and is modelled by `FormatAll`. -/
def Version.IncPatch (v : Version) : Version × Option VErr :=
  if v.phase ≠ stable then (Version.zero, some .invalidState)
  else
    let nv : Version := ⟨v.year, v.ordinal, v.patch + 1, v.phase, 0, 0, 0, "", ""⟩
    ({ nv with raw := FormatAll nv "v%X.%Y.%Z" }, none)

/-- Method `Version.IncPreRelease` from version.go (template `"v%X.%Y.%Z-%P.%o"`,
likewise panic-free). -/
def Version.IncPreRelease (v : Version) : Version × Option VErr :=
  if !v.IsPrerelease then (Version.zero, some .invalidState)
  else if v.phaseSubOrdinal > 0 ∨ v.customOrdinal > 0 then (Version.zero, some .invalidState)
  else
    let nv : Version :=
      ⟨v.year, v.ordinal, v.patch, v.phase, v.phaseOrdinal + 1, 0, 0, "", v.raw⟩
    ({ nv with raw := FormatAll nv "v%X.%Y.%Z-%P.%o" }, none)

/-! ### SQL scan adapters -/

/-- The runtime shapes a `database/sql` driver can hand to `Scan`:
nil, a string, or a value of any other type. -/
inductive SQLValue where
  | null
  | str (s : String)
  | other
deriving DecidableEq

/-- Method `Version.Scan` from version.go, as a function from the receiver's prior
state and the scanned value to the new state and error (on error the
receiver is unchanged, as in the source). -/
def VersionScan (v : Version) (val : SQLValue) : Version × Option VErr :=
  match val with
  | .null => (v, some .requiredValueMissing)
  | .str s =>
    if s = "" then (Version.zero, none)
    else
      match Parse s with
      | (p, none) => (p, none)
      | (_, some e) => (v, some e)
  | .other => (v, some .typeMismatch)

/-- The `NullVersion` struct of null_version.go. -/
structure NullVersion where
  Valid : Bool
  Version : Version
deriving DecidableEq

def NewNullVersion (v : Version) : NullVersion := ⟨!v.Empty, v⟩

/-- Method `NullVersion.Scan` from null_version.go. -/
def NullVersionScan (n : NullVersion) (val : SQLValue) : NullVersion × Option VErr :=
  match val with
  | .null => (⟨false, Version.zero⟩, none)
  | _ =>
    match VersionScan n.Version val with
    | (v2, none) => (⟨true, v2⟩, none)
    | (_, some e) => (n, some e)

/-! ### Basic comparison lemmas -/

theorem cmpInt_refl (a : Int) : cmpInt a a = 0 := by
  simp [cmpInt]

theorem cmpInt_antisym (a b : Int) : cmpInt a b = -cmpInt b a := by
  unfold cmpInt
  split_ifs <;> omega

theorem cmpInt_eq_zero (a b : Int) : cmpInt a b = 0 ↔ a = b := by
  unfold cmpInt
  split_ifs with h1 h2 <;> simp <;> omega

theorem cmpInt_neg (a b : Int) : cmpInt a b < 0 ↔ a < b := by
  unfold cmpInt
  split_ifs <;> omega

theorem cmpCharList_refl (s : List Char) : cmpCharList s s = 0 := by
  induction s with
  | nil => rfl
  | cons c cs ih => simp [cmpCharList, ih]

theorem cmpCharList_antisym (s t : List Char) :
    cmpCharList s t = -cmpCharList t s := by
  induction s generalizing t with
  | nil => cases t <;> simp [cmpCharList]
  | cons c cs ih =>
    cases t with
    | nil => simp [cmpCharList]
    | cons d ds =>
      simp only [cmpCharList]
      split_ifs with h1 h2 <;> first | omega | simp | exact ih ds

theorem cmpCharList_eq_zero (s t : List Char) :
    cmpCharList s t = 0 ↔ s = t := by
  induction s generalizing t with
  | nil => cases t <;> simp [cmpCharList]
  | cons c cs ih =>
    cases t with
    | nil => simp [cmpCharList]
    | cons d ds =>
      simp only [cmpCharList, List.cons.injEq]
      split_ifs with h1 h2
      · simp
        intro hc
        rw [hc] at h1
        omega
      · simp
        intro hc
        rw [hc] at h2
        omega
      · have h3 : c.toNat = d.toNat := by omega
        have hcd : c = d := Char.eq_of_val_eq (UInt32.ext h3)
        simp [hcd, ih]

theorem cmpCharList_neg_trans (s t u : List Char)
    (h1 : cmpCharList s t < 0) (h2 : cmpCharList t u < 0) :
    cmpCharList s u < 0 := by
  induction s generalizing t u with
  | nil =>
    cases u with
    | nil =>
      cases t with
      | nil => simp [cmpCharList] at h2
      | cons d ds => simp [cmpCharList] at h2
    | cons e es => simp [cmpCharList]
  | cons c cs ih =>
    cases t with
    | nil => simp [cmpCharList] at h1
    | cons d ds =>
      cases u with
      | nil => simp [cmpCharList] at h2
      | cons e es =>
        simp only [cmpCharList] at h1 h2 ⊢
        split_ifs at h1 with hcd1 hcd2 <;>
          split_ifs at h2 with hde1 hde2 <;>
            split_ifs with hce1 hce2 <;>
              first | omega | (exact ih ds es h1 h2)

theorem cmpStr_refl (s : String) : cmpStr s s = 0 := cmpCharList_refl s.data

theorem cmpStr_antisym (s t : String) : cmpStr s t = -cmpStr t s :=
  cmpCharList_antisym s.data t.data

theorem cmpStr_eq_zero (s t : String) : cmpStr s t = 0 ↔ s = t := by
  unfold cmpStr
  rw [cmpCharList_eq_zero]
  constructor
  · intro h; exact String.ext h
  · intro h; rw [h]

theorem cmpStr_neg_trans (s t u : String)
    (h1 : cmpStr s t < 0) (h2 : cmpStr t u < 0) : cmpStr s u < 0 :=
  cmpCharList_neg_trans s.data t.data u.data h1 h2

theorem lexStep_antisym (x x' r r' : Int) (hx : x' = -x) (hr : r' = -r) :
    lexStep x' r' = -lexStep x r := by
  subst hx hr
  unfold lexStep
  split_ifs <;> omega

theorem lexStep_trans (x y z r s t : Int)
    (hzero : x = 0 → y = 0 → z = 0)
    (hA : x = 0 → y < 0 → z < 0)
    (hB : x < 0 → y = 0 → z < 0)
    (hC : x < 0 → y < 0 → z < 0)
    (hrest : r ≤ 0 → s ≤ 0 → t ≤ 0)
    (hab : lexStep x r ≤ 0) (hbc : lexStep y s ≤ 0) : lexStep z t ≤ 0 := by
  unfold lexStep at hab hbc ⊢
  by_cases hx : x = 0 <;> by_cases hy : y = 0 <;> simp [hx, hy] at hab hbc
  · have hz : z = 0 := hzero hx hy
    simp [hz]
    exact hrest hab hbc
  · have hz : z < 0 := hA hx (by omega)
    simp [show z ≠ 0 by omega]
    omega
  · have hz : z < 0 := hB (by omega) hy
    simp [show z ≠ 0 by omega]
    omega
  · have hz : z < 0 := hC (by omega) (by omega)
    simp [show z ≠ 0 by omega]
    omega

theorem cmpInt_zero_zero (a b c : Int) :
    cmpInt a b = 0 → cmpInt b c = 0 → cmpInt a c = 0 := by
  rw [cmpInt_eq_zero, cmpInt_eq_zero, cmpInt_eq_zero]; omega

theorem cmpInt_zero_neg (a b c : Int) :
    cmpInt a b = 0 → cmpInt b c < 0 → cmpInt a c < 0 := by
  rw [cmpInt_eq_zero, cmpInt_neg, cmpInt_neg]; omega

theorem cmpInt_neg_zero (a b c : Int) :
    cmpInt a b < 0 → cmpInt b c = 0 → cmpInt a c < 0 := by
  rw [cmpInt_eq_zero, cmpInt_neg, cmpInt_neg]; omega

theorem cmpInt_neg_neg (a b c : Int) :
    cmpInt a b < 0 → cmpInt b c < 0 → cmpInt a c < 0 := by
  rw [cmpInt_neg, cmpInt_neg, cmpInt_neg]; omega

theorem cmpStr_zero_zero (a b c : String) :
    cmpStr a b = 0 → cmpStr b c = 0 → cmpStr a c = 0 := by
  rw [cmpStr_eq_zero, cmpStr_eq_zero, cmpStr_eq_zero]
  intro h1 h2; rw [h1, h2]

theorem cmpStr_zero_neg (a b c : String) :
    cmpStr a b = 0 → cmpStr b c < 0 → cmpStr a c < 0 := by
  rw [cmpStr_eq_zero]
  intro h1 h2; rw [h1]; exact h2

theorem cmpStr_neg_zero (a b c : String) :
    cmpStr a b < 0 → cmpStr b c = 0 → cmpStr a c < 0 := by
  intro h1 h2
  have hbc : b = c := (cmpStr_eq_zero b c).mp h2
  rw [← hbc]
  exact h1

theorem compare_refl (v : Version) : v.Compare v = 0 := by
  simp [Version.Compare, lexStep, cmpInt_refl, cmpStr_refl]

theorem compare_antisym (v w : Version) : v.Compare w = -w.Compare v := by
  unfold Version.Compare
  apply lexStep_antisym _ _ _ _ (cmpInt_antisym _ _)
  apply lexStep_antisym _ _ _ _ (cmpInt_antisym _ _)
  apply lexStep_antisym _ _ _ _ (cmpInt_antisym _ _)
  apply lexStep_antisym _ _ _ _ (cmpInt_antisym _ _)
  apply lexStep_antisym _ _ _ _ (cmpInt_antisym _ _)
  apply lexStep_antisym _ _ _ _ (cmpInt_antisym _ _)
  apply lexStep_antisym _ _ _ _ (cmpInt_antisym _ _)
  apply lexStep_antisym _ _ _ _ (cmpStr_antisym _ _)
  omega

theorem compare_trans (v w u : Version)
    (h1 : v.Compare w ≤ 0) (h2 : w.Compare u ≤ 0) : v.Compare u ≤ 0 := by
  unfold Version.Compare at h1 h2 ⊢
  refine lexStep_trans _ _ _ _ _ _ (cmpInt_zero_zero _ _ _) (cmpInt_zero_neg _ _ _)
    (cmpInt_neg_zero _ _ _) (cmpInt_neg_neg _ _ _) ?_ h1 h2
  intro h1 h2
  refine lexStep_trans _ _ _ _ _ _ (cmpInt_zero_zero _ _ _) (cmpInt_zero_neg _ _ _)
    (cmpInt_neg_zero _ _ _) (cmpInt_neg_neg _ _ _) ?_ h1 h2
  intro h1 h2
  refine lexStep_trans _ _ _ _ _ _ (cmpInt_zero_zero _ _ _) (cmpInt_zero_neg _ _ _)
    (cmpInt_neg_zero _ _ _) (cmpInt_neg_neg _ _ _) ?_ h1 h2
  intro h1 h2
  refine lexStep_trans _ _ _ _ _ _ (cmpInt_zero_zero _ _ _) (cmpInt_zero_neg _ _ _)
    (cmpInt_neg_zero _ _ _) (cmpInt_neg_neg _ _ _) ?_ h1 h2
  intro h1 h2
  refine lexStep_trans _ _ _ _ _ _ (cmpInt_zero_zero _ _ _) (cmpInt_zero_neg _ _ _)
    (cmpInt_neg_zero _ _ _) (cmpInt_neg_neg _ _ _) ?_ h1 h2
  intro h1 h2
  refine lexStep_trans _ _ _ _ _ _ (cmpInt_zero_zero _ _ _) (cmpInt_zero_neg _ _ _)
    (cmpInt_neg_zero _ _ _) (cmpInt_neg_neg _ _ _) ?_ h1 h2
  intro h1 h2
  refine lexStep_trans _ _ _ _ _ _ (cmpInt_zero_zero _ _ _) (cmpInt_zero_neg _ _ _)
    (cmpInt_neg_zero _ _ _) (cmpInt_neg_neg _ _ _) ?_ h1 h2
  intro h1 h2
  refine lexStep_trans _ _ _ _ _ _ (cmpStr_zero_zero _ _ _) (cmpStr_zero_neg _ _ _)
    (cmpStr_neg_zero _ _ _) (cmpStr_neg_trans _ _ _) ?_ h1 h2
  intro _ _
  omega

theorem lexStep_zero (r : Int) : lexStep 0 r = r := by simp [lexStep]

theorem lexStep_neg (c r : Int) (h : c ≠ 0) : lexStep c r = c := by simp [lexStep, h]

theorem cmpInt_of_lt (a b : Int) (h : a < b) : cmpInt a b = -1 := by
  simp [cmpInt, h]

/-! ### Structural lemmas about Parse -/

/-- Lemma: `applyCaps` either takes the defensive unknown-phase error branch (which
requires a phase capture missing from the name table), or succeeds with the
raw field set to the input string. -/
theorem applyCaps_spec (str : String) (c : Caps) :
    (c.phase ≠ "" ∧ lookupPhase c.phase = none ∧
      applyCaps str c = (Version.zero, some .unknownPhase))
    ∨ ((applyCaps str c).2 = none ∧ (applyCaps str c).1.raw = str) := by
  unfold applyCaps
  by_cases hp : c.phase = ""
  · right
    simp only [hp, ne_eq, not_true_eq_false, if_false]
    by_cases ha : c.adhocLabel = "" <;> simp [ha]
  · cases hl : lookupPhase c.phase with
    | none =>
      left
      refine ⟨hp, ?_, ?_⟩ <;> simp [hp, hl]
    | some ph =>
      right
      by_cases ha : c.adhocLabel = "" <;> simp [hp, hl, ha]

/-- The pattern loop either exhausts the list (malformed input) or stops
at the first matching pattern. -/
theorem ParseAux_cases (str : String) (ps : List (List Char → Option Caps)) :
    ParseAux str ps = (Version.zero, some .malformedInput)
    ∨ ∃ p, p ∈ ps ∧ ∃ caps, p str.data = some caps ∧
        ParseAux str ps = applyCaps str caps := by
  induction ps with
  | nil => left; rfl
  | cons p ps ih =>
    cases hc : p str.data with
    | some caps =>
      right
      exact ⟨p, List.mem_cons_self p ps, caps, hc, by simp [ParseAux, hc]⟩
    | none =>
      rcases ih with h | ⟨q, hq, caps, hqc, heq⟩
      · left
        simp [ParseAux, hc, h]
      · right
        exact ⟨q, List.mem_cons_of_mem p hq, caps, hqc, by simp [ParseAux, hc, heq]⟩

/-! ### Claims -/

/-- C2: Version.Compare is a total order: reflexive, antisymmetric
(Compare(v,w) = -Compare(w,v)), and transitive on the ≤-0 relation. -/
theorem c2_compare_total_order :
    (∀ v : Version, v.Compare v = 0)
    ∧ (∀ v w : Version, v.Compare w = -(w.Compare v))
    ∧ (∀ v w u : Version,
        v.Compare w ≤ 0 → w.Compare u ≤ 0 → v.Compare u ≤ 0) :=
  ⟨compare_refl, compare_antisym, compare_trans⟩

theorem c2_compare_total_order_witness :
    Version.Compare ⟨24, 1, 0, 1, 1, 0, 0, "", ""⟩ ⟨24, 1, 2, 3, 1, 0, 0, "", ""⟩ ≤ 0 :=
  c2_compare_total_order.2.2 ⟨24, 1, 0, 1, 1, 0, 0, "", ""⟩ ⟨24, 1, 1, 2, 1, 0, 0, "", ""⟩
    ⟨24, 1, 2, 3, 1, 0, 0, "", ""⟩ (by decide) (by decide)

/-- C4: release phases order as alpha < beta < rc < cloudonly < stable <
adhoc under Version.Compare, and the three concrete comparisons from the
spec hold. -/
theorem c4_phase_ordering :
    (alpha < beta ∧ beta < rc ∧ rc < cloudonly ∧ cloudonly < stable ∧ stable < adhoc)
    ∧ (∀ v w : Version, v.year = w.year → v.ordinal = w.ordinal →
        v.patch = w.patch → v.phase < w.phase → v.Compare w < 0)
    ∧ ((Parse "v24.1.0-alpha.1").2 = none ∧ (Parse "v24.1.0-beta.1").2 = none ∧
        (Parse "v24.1.0-alpha.1").1.Compare (Parse "v24.1.0-beta.1").1 < 0)
    ∧ ((Parse "v24.1.0-rc.1").2 = none ∧ (Parse "v24.1.0").2 = none ∧
        (Parse "v24.1.0-rc.1").1.Compare (Parse "v24.1.0").1 < 0)
    ∧ ((Parse "v24.1.0-1-gabcdef").2 = none ∧
        (Parse "v24.1.0").1.Compare (Parse "v24.1.0-1-gabcdef").1 < 0) := by
  refine ⟨by decide, ?_, by decide, by decide, by decide⟩
  intro v w hy ho hp hph
  rw [Version.Compare, (cmpInt_eq_zero _ _).mpr hy, lexStep_zero,
    (cmpInt_eq_zero _ _).mpr ho, lexStep_zero,
    (cmpInt_eq_zero _ _).mpr hp, lexStep_zero,
    cmpInt_of_lt _ _ hph, lexStep_neg]
  · omega
  · omega

theorem c4_phase_ordering_witness :
    Version.Compare ⟨24, 1, 0, 1, 0, 0, 0, "", ""⟩ ⟨24, 1, 0, 2, 0, 0, 0, "", ""⟩ < 0 :=
  c4_phase_ordering.2.1 ⟨24, 1, 0, 1, 0, 0, 0, "", ""⟩ ⟨24, 1, 0, 2, 0, 0, 0, "", ""⟩
    (by decide) (by decide) (by decide) (by decide)

/-- C9: whenever Parse returns an error, the Version it returns alongside
is exactly the zero value `Version{}`. -/
theorem c9_parse_error_returns_zero (s : String) (v : Version) (e : VErr)
    (h : Parse s = (v, some e)) : v = Version.zero := by
  rcases ParseAux_cases s patterns with hm | ⟨p, hp, caps, hpc, heq⟩
  · rw [Parse, hm] at h
    simp at h
    exact h.1.symm
  · rw [Parse, heq] at h
    rcases applyCaps_spec s caps with ⟨_, _, hbad⟩ | ⟨h2, _⟩
    · rw [hbad] at h
      simp at h
      exact h.1.symm
    · rw [h] at h2
      simp at h2

theorem c9_parse_error_returns_zero_witness :
    (Version.zero : Version) = Version.zero :=
  c9_parse_error_returns_zero "not-a-version" Version.zero .malformedInput (by decide)

/-- C7: NullVersion.Scan of SQL NULL yields {Valid: false, Version{}},
Scan of the empty string yields {Valid: true, Version{}}, and the two
results are distinct NullVersion values. -/
theorem c7_nullversion_null_vs_empty (n : NullVersion) :
    NullVersionScan n .null = (⟨false, Version.zero⟩, none)
    ∧ NullVersionScan n (.str "") = (⟨true, Version.zero⟩, none)
    ∧ (⟨false, Version.zero⟩ : NullVersion) ≠ (⟨true, Version.zero⟩ : NullVersion) := by
  refine ⟨rfl, ?_, by decide⟩
  simp [NullVersionScan, VersionScan]

/-- C5: IncPatch errors exactly when the phase is not stable; on a stable
version it returns patch+1 with year/ordinal/phase copied, the remaining
fields zeroed, and raw re-derived via Format("v%X.%Y.%Z") of the new value. -/
theorem c5_incpatch_spec (v : Version) :
    ((v.IncPatch.2).isSome ↔ v.phase ≠ stable)
    ∧ (v.phase = stable →
        v.IncPatch = (⟨v.year, v.ordinal, v.patch + 1, v.phase, 0, 0, 0, "",
            FormatAll ⟨v.year, v.ordinal, v.patch + 1, v.phase, 0, 0, 0, "", ""⟩
              "v%X.%Y.%Z"⟩, none)
        ∧ Format ⟨v.year, v.ordinal, v.patch + 1, v.phase, 0, 0, 0, "", ""⟩ "v%X.%Y.%Z"
            = some (v.IncPatch.1).raw) := by
  constructor
  · by_cases h : v.phase = stable <;> simp [Version.IncPatch, h]
  · intro h
    have hok : hasBadPlaceholder "v%X.%Y.%Z".data = false := by decide
    constructor
    · simp [Version.IncPatch, h]
    · simp [Version.IncPatch, h, Format, hok]

theorem c5_incpatch_spec_witness :
    Version.IncPatch ⟨24, 1, 0, 5, 0, 0, 0, "", "v24.1.0"⟩
      = (⟨24, 1, 1, 5, 0, 0, 0, "",
          FormatAll ⟨24, 1, 1, 5, 0, 0, 0, "", ""⟩ "v%X.%Y.%Z"⟩, none)
    ∧ Format ⟨24, 1, 1, 5, 0, 0, 0, "", ""⟩ "v%X.%Y.%Z"
        = some ((Version.IncPatch ⟨24, 1, 0, 5, 0, 0, 0, "", "v24.1.0"⟩).1).raw :=
  (c5_incpatch_spec ⟨24, 1, 0, 5, 0, 0, 0, "", "v24.1.0"⟩).2 (by decide)

/-- C6 counterexample: on the Version with phase alpha, phaseOrdinal 1 and
adhocLabel "x", IncPreRelease succeeds but does NOT copy the comparison
field adhocLabel (it resets it to ""), so "all other comparison fields
copied from v" fails. -/
theorem c6_counterexample :
    (Version.IncPreRelease ⟨24, 1, 0, 1, 1, 0, 0, "x", ""⟩).2 = none
    ∧ ((Version.IncPreRelease ⟨24, 1, 0, 1, 1, 0, 0, "x", ""⟩).1).adhocLabel
        ≠ (⟨24, 1, 0, 1, 1, 0, 0, "x", ""⟩ : Version).adhocLabel := by
  decide

/-- C6 amended: IncPreRelease errors exactly when IsPrerelease() is false or
phaseSubOrdinal > 0 or customOrdinal > 0; otherwise it returns a new Version
with phaseOrdinal+1, year/ordinal/patch/phase copied, phaseSubOrdinal,
customOrdinal and adhocLabel reset to zero/empty (for phaseSubOrdinal and
customOrdinal this coincides with copying, by the precondition), and raw
re-derived via Format("v%X.%Y.%Z-%P.%o"); on Parse("v24.1.0-rc.1") the result
is field-equal to Parse("v24.1.0-rc.2"). -/
theorem c6_incprerelease_amended (v : Version) :
    ((v.IncPreRelease.2).isSome ↔
      (v.IsPrerelease = false ∨ v.phaseSubOrdinal > 0 ∨ v.customOrdinal > 0))
    ∧ (v.IsPrerelease = true → ¬ v.phaseSubOrdinal > 0 → ¬ v.customOrdinal > 0 →
        v.IncPreRelease = (⟨v.year, v.ordinal, v.patch, v.phase, v.phaseOrdinal + 1, 0, 0, "",
            FormatAll ⟨v.year, v.ordinal, v.patch, v.phase, v.phaseOrdinal + 1, 0, 0, "", v.raw⟩
              "v%X.%Y.%Z-%P.%o"⟩, none)
        ∧ Format ⟨v.year, v.ordinal, v.patch, v.phase, v.phaseOrdinal + 1, 0, 0, "", v.raw⟩
            "v%X.%Y.%Z-%P.%o" = some (v.IncPreRelease.1).raw)
    ∧ (Version.IncPreRelease (Parse "v24.1.0-rc.1").1).1.Equals (Parse "v24.1.0-rc.2").1
        = true := by
  refine ⟨?_, ?_, by decide⟩
  · by_cases h1 : v.IsPrerelease
    · by_cases h2 : v.phaseSubOrdinal > 0 ∨ v.customOrdinal > 0
      · simp [Version.IncPreRelease, h1, h2]
      · simp [Version.IncPreRelease, h1, h2]
    · simp [Version.IncPreRelease, h1]
  · intro h1 h2 h3
    have hok : hasBadPlaceholder "v%X.%Y.%Z-%P.%o".data = false := by decide
    have h4 : ¬ (v.phaseSubOrdinal > 0 ∨ v.customOrdinal > 0) := by omega
    constructor
    · simp [Version.IncPreRelease, h1, h4]
    · simp [Version.IncPreRelease, h1, h4, Format, hok]

theorem c6_incprerelease_amended_witness :
    Version.IncPreRelease ⟨24, 1, 0, 3, 1, 0, 0, "", "v24.1.0-rc.1"⟩
      = (⟨24, 1, 0, 3, 2, 0, 0, "",
          FormatAll ⟨24, 1, 0, 3, 2, 0, 0, "", "v24.1.0-rc.1"⟩ "v%X.%Y.%Z-%P.%o"⟩, none)
    ∧ Format ⟨24, 1, 0, 3, 2, 0, 0, "", "v24.1.0-rc.1"⟩ "v%X.%Y.%Z-%P.%o"
        = some ((Version.IncPreRelease ⟨24, 1, 0, 3, 1, 0, 0, "", "v24.1.0-rc.1"⟩).1).raw :=
  (c6_incprerelease_amended ⟨24, 1, 0, 3, 1, 0, 0, "", "v24.1.0-rc.1"⟩).2.1
    (by decide) (by decide) (by decide)

/-- C3 counterexample: the patterns are NOT mutually exclusive; the string
"v24.1.0-alpha.1" is matched by two of the listed patterns. -/
theorem c3_counterexample : ¬ (∀ s : String, matchCount s ≤ 1) := by
  intro hall
  have h1 : matchCount "v24.1.0-alpha.1" = 2 := by decide
  have h2 := hall "v24.1.0-alpha.1"
  omega

/-- C3 amended: the patterns overlap, and the priority order does affect the
parse result: the phase pattern (2) and the catch-all adhoc pattern (8) both
match "v24.1.0-alpha.1" and extract different Versions; Parse returns the
result of the earliest matching pattern. -/
theorem c3_order_matters :
    matchCount "v24.1.0-alpha.1" = 2
    ∧ (pat2 "v24.1.0-alpha.1".data).isSome = true
    ∧ (pat8 "v24.1.0-alpha.1".data).isSome = true
    ∧ ParseAux "v24.1.0-alpha.1" [pat8] ≠ ParseAux "v24.1.0-alpha.1" [pat2]
    ∧ Parse "v24.1.0-alpha.1" = ParseAux "v24.1.0-alpha.1" [pat2] := by
  decide

/-! ### The phase capture of every pattern is in the name table (for C8) -/

theorem phaseKw_ok (l : List Char) (ph : String) (r : List Char)
    (h : phaseKw l = some (ph, r)) :
    ph = "alpha" ∨ ph = "beta" ∨ ph = "rc" ∨ ph = "cloudonly" := by
  unfold phaseKw at h
  split_ifs at h <;> simp_all

theorem lookupPhase_isSome (ph : String)
    (h : ph = "alpha" ∨ ph = "beta" ∨ ph = "rc" ∨ ph = "cloudonly") :
    (lookupPhase ph).isSome := by
  rcases h with h | h | h | h <;> subst h <;> decide

theorem pat1_phase (l : List Char) (caps : Caps) (h : pat1 l = some caps) :
    caps.phase = "" := by
  unfold pat1 at h
  cases hv : vyop l with
  | none => simp [hv] at h
  | some t =>
    obtain ⟨y, o, p, rest⟩ := t
    simp only [hv] at h
    by_cases h5 : fipsEnd rest = true
    · rw [if_pos h5] at h
      injection h with h6
      subst h6
      rfl
    · rw [if_neg h5] at h
      exact Option.noConfusion h

theorem pat2_phase (l : List Char) (caps : Caps) (h : pat2 l = some caps) :
    (lookupPhase caps.phase).isSome := by
  unfold pat2 at h
  cases hv : vyop l with
  | none => simp [hv] at h
  | some t =>
    obtain ⟨y, o, p, rest⟩ := t
    simp only [hv] at h
    cases h1 : expectChar '-' rest with
    | none => simp [h1] at h
    | some r1 =>
      simp only [h1] at h
      cases h2 : phaseKw r1 with
      | none => simp [h2] at h
      | some pr =>
        obtain ⟨ph, r2⟩ := pr
        simp only [h2] at h
        cases h3 : expectChar '.' r2 with
        | none => simp [h3] at h
        | some r3 =>
          simp only [h3] at h
          cases h4 : digits1 r3 with
          | none => simp [h4] at h
          | some dr =>
            obtain ⟨po, r4⟩ := dr
            simp only [h4] at h
            by_cases h5 : fipsEnd r4 = true
            · rw [if_pos h5] at h
              injection h with h6
              subst h6
              exact lookupPhase_isSome ph (phaseKw_ok r1 ph r2 h2)
            · rw [if_neg h5] at h
              exact Option.noConfusion h

theorem pat3_phase (l : List Char) (caps : Caps) (h : pat3 l = some caps) :
    caps.phase = "" := by
  unfold pat3 at h
  cases hv : vyop l with
  | none => simp [hv] at h
  | some t =>
    obtain ⟨y, o, p, rest⟩ := t
    simp only [hv] at h
    cases h1 : expectChar '-' rest with
    | none => simp [h1] at h
    | some r1 =>
      simp only [h1] at h
      cases h2 : canonNum r1 with
      | none => simp [h2] at h
      | some cr =>
        obtain ⟨co, r2⟩ := cr
        simp only [h2] at h
        cases h3 : expectList "-g".data r2 with
        | none => simp [h3] at h
        | some r3 =>
          simp only [h3] at h
          cases h4 : splitWhile isHexChar r3 with
          | mk hx r4 =>
            simp only [h4] at h
            cases hx with
            | nil => exact Option.noConfusion h
            | cons hc hcs =>
              simp only [] at h
              by_cases h5 : fipsEnd r4 = true
              · rw [if_pos h5] at h
                injection h with h6
                subst h6
                rfl
              · rw [if_neg h5] at h
                exact Option.noConfusion h

theorem pat4_phase (l : List Char) (caps : Caps) (h : pat4 l = some caps) :
    (lookupPhase caps.phase).isSome := by
  unfold pat4 at h
  cases hv : vyop l with
  | none => simp [hv] at h
  | some t =>
    obtain ⟨y, o, p, rest⟩ := t
    simp only [hv] at h
    cases h1 : expectChar '-' rest with
    | none => simp [h1] at h
    | some r1 =>
      simp only [h1] at h
      cases h2 : phaseKw r1 with
      | none => simp [h2] at h
      | some pr =>
        obtain ⟨ph, r2⟩ := pr
        simp only [h2] at h
        cases h3 : anyChar r2 with
        | none => simp [h3] at h
        | some r3 =>
          simp only [h3] at h
          cases h4 : digits1 r3 with
          | none => simp [h4] at h
          | some dr =>
            obtain ⟨po, r4⟩ := dr
            simp only [h4] at h
            cases h5 : expectChar '-' r4 with
            | none => simp [h5] at h
            | some r5 =>
              simp only [h5] at h
              cases h6 : canonNum r5 with
              | none => simp [h6] at h
              | some cr =>
                obtain ⟨co, r6⟩ := cr
                simp only [h6] at h
                cases h7 : expectList "-g".data r6 with
                | none => simp [h7] at h
                | some r7 =>
                  simp only [h7] at h
                  cases h8 : splitWhile isHexChar r7 with
                  | mk hx r8 =>
                    simp only [h8] at h
                    cases hx with
                    | nil => exact Option.noConfusion h
                    | cons hc hcs =>
                      simp only [] at h
                      by_cases h9 : fipsEnd r8 = true
                      · rw [if_pos h9] at h
                        injection h with h10
                        subst h10
                        exact lookupPhase_isSome ph (phaseKw_ok r1 ph r2 h2)
                      · rw [if_neg h9] at h
                        exact Option.noConfusion h

theorem pat5_phase (l : List Char) (caps : Caps) (h : pat5 l = some caps) :
    (lookupPhase caps.phase).isSome := by
  unfold pat5 at h
  cases hv : vyop l with
  | none => simp [hv] at h
  | some t =>
    obtain ⟨y, o, p, rest⟩ := t
    simp only [hv] at h
    cases h1 : expectChar '-' rest with
    | none => simp [h1] at h
    | some r1 =>
      simp only [h1] at h
      cases h2 : phaseKw r1 with
      | none => simp [h2] at h
      | some pr =>
        obtain ⟨ph, r2⟩ := pr
        simp only [h2] at h
        cases h3 : anyChar r2 with
        | none => simp [h3] at h
        | some r3 =>
          simp only [h3] at h
          cases h4 : digits1 r3 with
          | none => simp [h4] at h
          | some dr =>
            obtain ⟨po, r4⟩ := dr
            simp only [h4] at h
            cases h5 : expectList "-cloudonly".data r4 with
            | none => simp [h5] at h
            | some r5 =>
              simp only [h5] at h
              cases h6 : cloudSubSep r5 with
              | none => simp [h6] at h
              | some r6 =>
                simp only [h6] at h
                cases h7 : canonNum r6 with
                | none => simp [h7] at h
                | some cr =>
                  obtain ⟨ps, r7⟩ := cr
                  simp only [h7] at h
                  by_cases h8 : r7 = []
                  · rw [if_pos h8] at h
                    injection h with h9
                    subst h9
                    exact lookupPhase_isSome ph (phaseKw_ok r1 ph r2 h2)
                  · rw [if_neg h8] at h
                    exact Option.noConfusion h

theorem pat6_phase (l : List Char) (caps : Caps) (h : pat6 l = some caps) :
    (lookupPhase caps.phase).isSome := by
  unfold pat6 at h
  cases hv : vyop l with
  | none => simp [hv] at h
  | some t =>
    obtain ⟨y, o, p, rest⟩ := t
    simp only [hv] at h
    cases h1 : expectList "-cloudonly-rc".data rest with
    | none => simp [h1] at h
    | some r1 =>
      simp only [h1] at h
      cases h2 : digits1 r1 with
      | none => simp [h2] at h
      | some dr =>
        obtain ⟨po, r2⟩ := dr
        simp only [h2] at h
        by_cases h3 : r2 = []
        · rw [if_pos h3] at h
          injection h with h4
          subst h4
          exact lookupPhase_isSome "cloudonly" (Or.inr (Or.inr (Or.inr rfl)))
        · rw [if_neg h3] at h
          exact Option.noConfusion h

theorem pat7_phase (l : List Char) (caps : Caps) (h : pat7 l = some caps) :
    (lookupPhase caps.phase).isSome := by
  unfold pat7 at h
  cases hv : vyop l with
  | none => simp [hv] at h
  | some t =>
    obtain ⟨y, o, p, rest⟩ := t
    simp only [hv] at h
    cases h1 : expectList "-cloudonly".data rest with
    | none => simp [h1] at h
    | some r1 =>
      simp only [h1] at h
      by_cases h2 : (splitWhile Char.isDigit r1).2 = []
      · rw [if_pos h2] at h
        injection h with h3
        subst h3
        exact lookupPhase_isSome "cloudonly" (Or.inr (Or.inr (Or.inr rfl)))
      · rw [if_neg h2] at h
        exact Option.noConfusion h

theorem pat8_phase (l : List Char) (caps : Caps) (h : pat8 l = some caps) :
    caps.phase = "" := by
  unfold pat8 at h
  cases hv : vyop l with
  | none => simp [hv] at h
  | some t =>
    obtain ⟨y, o, p, rest⟩ := t
    simp only [hv] at h
    cases h1 : expectChar '-' rest with
    | none => simp [h1] at h
    | some r1 =>
      simp only [h1] at h
      cases h2 : splitWhile isLabelChar r1 with
      | mk lab r2 =>
        simp only [h2] at h
        cases lab with
        | nil => exact Option.noConfusion h
        | cons lc lcs =>
          simp only [] at h
          by_cases h3 : r2 = []
          · rw [if_pos h3] at h
            injection h with h4
            subst h4
            rfl
          · rw [if_neg h3] at h
            exact Option.noConfusion h

theorem pat9_phase (l : List Char) (caps : Caps) (h : pat9 l = some caps) :
    caps.phase = "" := by
  unfold pat9 at h
  cases h0 : expectList "sha256:".data l with
  | none => simp [h0] at h
  | some l1 =>
    simp only [h0] at h
    cases h1 : splitWhile (fun c => c != ':') l1 with
    | mk lab l2 =>
      simp only [h1] at h
      cases lab with
      | nil => exact Option.noConfusion h
      | cons lc lcs =>
        simp only [] at h
        cases h2 : expectList ":latest-v".data l2 with
        | none => simp [h2] at h
        | some l3 =>
          simp only [h2] at h
          cases h3 : posNum l3 with
          | none => simp [h3] at h
          | some yr =>
            obtain ⟨y, l4⟩ := yr
            simp only [h3] at h
            cases h4 : expectChar '.' l4 with
            | none => simp [h4] at h
            | some l5 =>
              simp only [h4] at h
              cases h5 : posNum l5 with
              | none => simp [h5] at h
              | some orr =>
                obtain ⟨o, l6⟩ := orr
                simp only [h5] at h
                cases h6 : expectList "-build".data l6 with
                | none => simp [h6] at h
                | some l7 =>
                  simp only [h6] at h
                  by_cases h7 : l7 = []
                  · rw [if_pos h7] at h
                    injection h with h8
                    subst h8
                    rfl
                  · rw [if_neg h7] at h
                    exact Option.noConfusion h

/-- Every pattern in the list produces a phase capture that is either absent
or present in the phase name table. -/
theorem pattern_phase_ok (p : List Char → Option Caps) (hp : p ∈ patterns)
    (l : List Char) (caps : Caps) (h : p l = some caps) :
    caps.phase = "" ∨ (lookupPhase caps.phase).isSome := by
  simp only [patterns, List.mem_cons, List.not_mem_nil, or_false] at hp
  rcases hp with rfl | rfl | rfl | rfl | rfl | rfl | rfl | rfl | rfl
  · exact Or.inl (pat1_phase l caps h)
  · exact Or.inr (pat2_phase l caps h)
  · exact Or.inl (pat3_phase l caps h)
  · exact Or.inr (pat4_phase l caps h)
  · exact Or.inr (pat5_phase l caps h)
  · exact Or.inr (pat6_phase l caps h)
  · exact Or.inr (pat7_phase l caps h)
  · exact Or.inl (pat8_phase l caps h)
  · exact Or.inl (pat9_phase l caps h)

/-- C8: the defensive "unknown phase" error branch in Parse is unreachable:
no input string makes Parse return that Internal error. -/
theorem c8_unknown_phase_unreachable (s : String) :
    (Parse s).2 ≠ some VErr.unknownPhase := by
  rcases ParseAux_cases s patterns with hm | ⟨p, hp, caps, hpc, heq⟩
  · unfold Parse
    rw [hm]
    simp
  · unfold Parse
    rw [heq]
    rcases applyCaps_spec s caps with ⟨hph, hnone, _⟩ | ⟨h2, _⟩
    · rcases pattern_phase_ok p hp s.data caps hpc with he | hsome
      · exact absurd he hph
      · rw [hnone] at hsome
        simp at hsome
    · rw [h2]
      simp

/-! ### Year zero: Parse rejects it, ParseMajorVersion accepts it (C10) -/

theorem posNum_zero_head (r : List Char) : posNum ('0' :: r) = none := by
  have hd : Char.isDigit '0' = true := by decide
  simp [posNum, splitWhile, hd]

theorem vyop_v0 (r : List Char) : vyop ('v' :: '0' :: '.' :: r) = none := by
  simp [vyop, expectChar, posNum_zero_head]

theorem pat1_v0 (r : List Char) : pat1 ('v' :: '0' :: '.' :: r) = none := by
  simp [pat1, vyop_v0]

theorem pat2_v0 (r : List Char) : pat2 ('v' :: '0' :: '.' :: r) = none := by
  simp [pat2, vyop_v0]

theorem pat3_v0 (r : List Char) : pat3 ('v' :: '0' :: '.' :: r) = none := by
  simp [pat3, vyop_v0]

theorem pat4_v0 (r : List Char) : pat4 ('v' :: '0' :: '.' :: r) = none := by
  simp [pat4, vyop_v0]

theorem pat5_v0 (r : List Char) : pat5 ('v' :: '0' :: '.' :: r) = none := by
  simp [pat5, vyop_v0]

theorem pat6_v0 (r : List Char) : pat6 ('v' :: '0' :: '.' :: r) = none := by
  simp [pat6, vyop_v0]

theorem pat7_v0 (r : List Char) : pat7 ('v' :: '0' :: '.' :: r) = none := by
  simp [pat7, vyop_v0]

theorem pat8_v0 (r : List Char) : pat8 ('v' :: '0' :: '.' :: r) = none := by
  simp [pat8, vyop_v0]

theorem pat9_v0 (r : List Char) : pat9 ('v' :: '0' :: '.' :: r) = none := by
  have hpre : "sha256:".data.isPrefixOf ('v' :: '0' :: '.' :: r) = false := by
    simp [List.isPrefixOf]
  simp [pat9, expectList, hpre]

theorem splitWhile_all (p : Char → Bool) (l : List Char) (h : ∀ c ∈ l, p c) :
    splitWhile p l = (l, []) := by
  induction l with
  | nil => rfl
  | cons c cs ih =>
    have hc : p c = true := h c (by simp)
    have ihh : splitWhile p cs = (cs, []) := ih (fun d hd => h d (by simp [hd]))
    simp [splitWhile, hc, ihh]

/-- C10: every string beginning "v0." is rejected by Parse with
MalformedInput (every Version pattern requires year to match [1-9][0-9]*),
while ParseMajorVersion accepts "v0.N" for every canonical positive
ordinal numeral N. -/
theorem c10_parse_rejects_major_accepts_year_zero :
    (∀ (s : String) (r : List Char), s.data = 'v' :: '0' :: '.' :: r →
      Parse s = (Version.zero, some VErr.malformedInput))
    ∧ (∀ d : String, d.data ≠ [] → d.data.head? ≠ some '0' →
        (∀ c ∈ d.data, c.isDigit) →
        ParseMajorVersion ("v0." ++ d) = (⟨0, atoi d⟩, none)) := by
  constructor
  · intro s r hs
    simp [Parse, patterns, ParseAux, hs, pat1_v0, pat2_v0, pat3_v0, pat4_v0,
      pat5_v0, pat6_v0, pat7_v0, pat8_v0, pat9_v0]
  · intro d hne hhead hdig
    obtain ⟨ld⟩ := d
    cases ld with
    | nil => exact absurd rfl hne
    | cons c cs =>
      have hc0 : ¬ c = '0' := by
        intro hc
        exact hhead (by simp [hc, String.data])
      have hsplit : splitWhile Char.isDigit (c :: cs) = (c :: cs, []) := by
        apply splitWhile_all
        intro e he
        exact hdig e he
      have hdata : ("v0." ++ String.mk (c :: cs)).data
          = 'v' :: '0' :: '.' :: c :: cs := rfl
      have hd0 : Char.isDigit '0' = true := by decide
      have hdd : Char.isDigit '.' = false := by decide
      have hcanon : canonNum ('0' :: '.' :: c :: cs) = some (['0'], '.' :: c :: cs) := by
        simp [canonNum, splitWhile, hd0, hdd]
      have hpos : posNum (c :: cs) = some (c :: cs, []) := by
        simp [posNum, hsplit, hc0]
      have hz : digitsToNat ['0'] 0 = 0 := by decide
      simp [ParseMajorVersion, hdata, expectChar, hcanon, hpos, hz, atoi]

theorem c7_nullversion_null_vs_empty_witness :
    NullVersionScan ⟨true, Version.zero⟩ SQLValue.null = (⟨false, Version.zero⟩, none)
    ∧ NullVersionScan ⟨true, Version.zero⟩ (SQLValue.str "") = (⟨true, Version.zero⟩, none)
    ∧ (⟨false, Version.zero⟩ : NullVersion) ≠ (⟨true, Version.zero⟩ : NullVersion) :=
  c7_nullversion_null_vs_empty ⟨true, Version.zero⟩

theorem c8_unknown_phase_unreachable_witness :
    ((Parse "v24.1.0-alpha.1").2 ≠ some VErr.unknownPhase) :=
  c8_unknown_phase_unreachable "v24.1.0-alpha.1"

theorem c10_parse_rejects_major_accepts_year_zero_witness :
    Parse "v0.1" = (Version.zero, some VErr.malformedInput)
    ∧ ParseMajorVersion "v0.7" = (⟨0, atoi "7"⟩, none) :=
  ⟨c10_parse_rejects_major_accepts_year_zero.1 "v0.1" ['1'] (by decide),
    c10_parse_rejects_major_accepts_year_zero.2 "7" (by decide) (by decide) (by decide)⟩

end Crdb
